import Mathlib

/-!
Shallow embedding of V8's `SharedFunctionInfo` core
(`src/deps/v8/src/objects/shared-function-info.cc`): the per-function
metadata record, its tagged executable payload, source-position
resolution, lazy-compilation discard, the script association registry,
and the inlineability classifier.  Object pointer identity is modelled
by natural-number identities; machine `int` source positions are `Int`
with the V8 `kNoSourcePosition = -1` sentinel; debug-only `DCHECK`s are
not part of the behaviour.
-/

/-- Sentinel for "no source position available" (V8 `kNoSourcePosition`). -/
def kNoSourcePosition : Int := -1

/-- Builtin id of the `Illegal` stub (concrete value arbitrary but fixed). -/
def kIllegal : Nat := 41

/-- Builtin id of the lazy-compile trampoline. -/
def kCompileLazy : Nat := 42

/-- Builtin id of the generic bytecode-interpreter entry. -/
def kInterpreterEntryTrampoline : Nat := 43

/-- Builtin id of the asm.js/wasm instantiation entry. -/
def kInstantiateAsmJs : Nat := 44

/-- Builtin id of the host-API-call entry. -/
def kHandleApiCall : Nat := 45

/-- A code object: either an entry of the builtins table, identified by its
builtin id, or an ordinary code object identified by its heap identity. -/
inductive Code where
  | builtin (id : Nat)
  | obj (n : Nat)
deriving DecidableEq, Repr

/-- The isolate's builtins table: maps a builtin id to its `Code` entry
(`isolate->builtins()->builtin(id)`). -/
def builtin_table (id : Nat) : Code := Code.builtin id

/-- Whether a code object is one of the interpreter-trampoline builtins
(`Code::is_interpreter_trampoline_builtin`). -/
def Code.is_interpreter_trampoline (c : Code) : Bool :=
  match c with
  | .builtin id => id = kInterpreterEntryTrampoline
  | .obj _ => false

/-- A scope descriptor (V8 `ScopeInfo`): optionally carries embedded source
position data and a function name; the outer scope info is kept as an opaque
heap identity. -/
structure ScopeInfo where
  position_info : Option (Int × Int)
  function_name : Option String
  outer_scope_info : Option Nat
deriving DecidableEq, Repr

/-- A deferred-parse summary (V8 `UncompiledData`): inferred name, stored
start/end positions, and an optional pre-parse cache (`PreparseData`,
kept as an opaque identity). -/
structure UncompiledData where
  inferred_name : String
  start_position : Int
  end_position : Int
  preparse_data : Option Nat
deriving DecidableEq, Repr

/-- A bytecode program (V8 `BytecodeArray`): its length and whether a source
position table has been materialized. -/
structure BytecodeArray where
  length : Nat
  has_source_position_table : Bool
deriving DecidableEq, Repr

/-- Exported-foreign-function data (V8 `WasmExportedFunctionData`): the
wrapper code, the owning module instance's per-function
(code-offset, end-offset) table, and this function's index in it. -/
structure WasmExportedFunctionData where
  wrapper_code : Code
  instance_functions : List (Int × Int)
  function_index : Nat
deriving DecidableEq, Repr

/-- Interpreter-trampoline data (V8 `InterpreterData`): carries the
trampoline code object. -/
structure InterpreterData where
  interpreter_trampoline : Code
deriving DecidableEq, Repr

/-- The tagged executable payload (`function_data`).  The `other` variant
stands for any heap value outside the closed set of valid variants; the
dispatcher treats it as a fatal invariant violation. -/
inductive FunctionData where
  | smi (builtin_id : Nat)
  | bytecodeArray (b : BytecodeArray)
  | asmWasmData (n : Nat)
  | uncompiledData (u : UncompiledData)
  | functionTemplateInfo (n : Nat)
  | wasmExportedFunctionData (w : WasmExportedFunctionData)
  | interpreterData (d : InterpreterData)
  | wasmJSFunctionData (wrapper_code : Code)
  | wasmCapiFunctionData (wrapper_code : Code)
  | other (n : Nat)
deriving DecidableEq, Repr

/-- The `name_or_scope_info` slot: the no-shared-name sentinel, a resolved
name string, or a scope descriptor. -/
inductive NameOrScopeInfo where
  | noSharedName
  | name (s : String)
  | scopeInfo (info : ScopeInfo)
deriving DecidableEq, Repr

/-- The reused `outer_scope_info_or_feedback_metadata` slot. -/
inductive OuterSlot where
  | theHole
  | scopeInfoRef (n : Nat)
  | feedbackMetadata (n : Nat)
deriving DecidableEq, Repr

/-- Debug info attached to a record (only the bits this core reads). -/
structure DebugInfo where
  has_break_info : Bool
  has_coverage_info : Bool
deriving DecidableEq, Repr

/-- The per-function metadata record (V8 `SharedFunctionInfo`).  `self` is
the record's heap identity, used for weak-reference comparisons;
`script_ref` holds the owning script's id or `none`;
`stored_inferred_name` models where the inferred name lives when no
deferred-parse summary is active (the accessor is header code outside
`src/`, modelled from the spec's data model). -/
structure SharedFunctionInfo where
  self : Nat
  function_data : FunctionData
  name_or_scope_info : NameOrScopeInfo
  outer_slot : OuterSlot
  script_ref : Option Nat
  debug_info : Option DebugInfo
  stored_inferred_name : String
  expected_nof_properties : Nat
  are_properties_final : Bool
  is_class_constructor : Bool
  optimization_disabled : Bool
  has_reported_binary_coverage : Bool
  is_user_javascript : Bool
deriving DecidableEq, Repr

/-- Modelled from the spec: payload-variant predicate `HasBuiltinId`
(payload is a Smi holding a builtin id). -/
def SharedFunctionInfo.HasBuiltinId (s : SharedFunctionInfo) : Bool :=
  match s.function_data with
  | .smi _ => true
  | _ => false

/-- Modelled from the spec: the builtin id carried by a Smi payload
(meaningful only under `HasBuiltinId`). -/
def SharedFunctionInfo.builtin_id (s : SharedFunctionInfo) : Nat :=
  match s.function_data with
  | .smi id => id
  | _ => 0

/-- Modelled from the spec: payload-variant predicate `HasBytecodeArray`. -/
def SharedFunctionInfo.HasBytecodeArray (s : SharedFunctionInfo) : Bool :=
  match s.function_data with
  | .bytecodeArray _ => true
  | _ => false

/-- Modelled from the spec: payload-variant predicate `HasAsmWasmData`. -/
def SharedFunctionInfo.HasAsmWasmData (s : SharedFunctionInfo) : Bool :=
  match s.function_data with
  | .asmWasmData _ => true
  | _ => false

/-- Modelled from the spec: payload-variant predicate `HasUncompiledData`
(a deferred-parse summary, with or without a pre-parse cache). -/
def SharedFunctionInfo.HasUncompiledData (s : SharedFunctionInfo) : Bool :=
  match s.function_data with
  | .uncompiledData _ => true
  | _ => false

/-- Modelled from the spec: predicate `HasUncompiledDataWithPreparseData`. -/
def SharedFunctionInfo.HasUncompiledDataWithPreparseData
    (s : SharedFunctionInfo) : Bool :=
  match s.function_data with
  | .uncompiledData u => u.preparse_data.isSome
  | _ => false

/-- Modelled from the spec: payload-variant predicate `IsApiFunction`
(payload is a host-API template). -/
def SharedFunctionInfo.IsApiFunction (s : SharedFunctionInfo) : Bool :=
  match s.function_data with
  | .functionTemplateInfo _ => true
  | _ => false

/-- Modelled from the spec: payload-variant predicate
`HasWasmExportedFunctionData`. -/
def SharedFunctionInfo.HasWasmExportedFunctionData
    (s : SharedFunctionInfo) : Bool :=
  match s.function_data with
  | .wasmExportedFunctionData _ => true
  | _ => false

/-- Modelled from the spec: whether the name slot holds a scope
descriptor. -/
def SharedFunctionInfo.HasScopeDescriptor (s : SharedFunctionInfo) : Bool :=
  match s.name_or_scope_info with
  | .scopeInfo _ => true
  | _ => false

/-- Modelled from the spec: `ClearPreparseData` drops the pre-parse cache of
a deferred-parse summary in place, keeping its name and positions. -/
def SharedFunctionInfo.ClearPreparseData
    (s : SharedFunctionInfo) : SharedFunctionInfo :=
  match s.function_data with
  | .uncompiledData u =>
      { s with function_data := .uncompiledData { u with preparse_data := none } }
  | _ => s

/-- Modelled from the spec: `is_compiled` — the payload is neither the
lazy-compile builtin Smi nor a deferred-parse summary. -/
def SharedFunctionInfo.is_compiled (s : SharedFunctionInfo) : Bool :=
  !(s.function_data == FunctionData.smi kCompileLazy) && !s.HasUncompiledData

/-- Modelled from the spec: discard eligibility `CanDiscardCompiled` — the
record holds a bytecode program, asm/wasm module data, or a deferred-parse
summary with a pre-parse cache. -/
def SharedFunctionInfo.CanDiscardCompiled (s : SharedFunctionInfo) : Bool :=
  s.HasBytecodeArray || s.HasAsmWasmData || s.HasUncompiledDataWithPreparseData

/-- Entry-point dispatcher (`SharedFunctionInfo::GetCode`): maps the active
payload variant to its entry point; `none` models the final
`UNREACHABLE()` on a payload outside the closed variant set. -/
def SharedFunctionInfo.GetCode (s : SharedFunctionInfo) : Option Code :=
  match s.function_data with
  | .smi id => some (builtin_table id)
  | .bytecodeArray _ => some (builtin_table kInterpreterEntryTrampoline)
  | .asmWasmData _ => some (builtin_table kInstantiateAsmJs)
  | .uncompiledData _ => some (builtin_table kCompileLazy)
  | .functionTemplateInfo _ => some (builtin_table kHandleApiCall)
  | .wasmExportedFunctionData w => some w.wrapper_code
  | .interpreterData d => some d.interpreter_trampoline
  | .wasmJSFunctionData c => some c
  | .wasmCapiFunctionData c => some c
  | .other _ => none

/-- Claim C1: the entry-point dispatcher maps each active executable-payload
variant to exactly one outcome — a Smi builtin id to the builtin-table
entry for that id, a bytecode program to the interpreter entry, asm/wasm
data to the instantiation entry, a deferred-parse summary (with or without
pre-parse cache) to the lazy-compile trampoline, a host-API template to the
host-API-call entry, exported-foreign-function / host-callback / C-callable
payloads to the wrapper code embedded in the payload, interpreter-trampoline
data to the code object it carries — and any other payload is a fatal
(unreachable) invariant violation.  In particular a record whose payload is
builtin id 7 dispatches to the builtin-table entry for id 7. -/
theorem GetCode_dispatch (s : SharedFunctionInfo) :
    (∀ id, s.function_data = .smi id → s.GetCode = some (builtin_table id)) ∧
    (∀ b, s.function_data = .bytecodeArray b →
      s.GetCode = some (builtin_table kInterpreterEntryTrampoline)) ∧
    (∀ n, s.function_data = .asmWasmData n →
      s.GetCode = some (builtin_table kInstantiateAsmJs)) ∧
    (∀ u, s.function_data = .uncompiledData u →
      s.GetCode = some (builtin_table kCompileLazy)) ∧
    (∀ n, s.function_data = .functionTemplateInfo n →
      s.GetCode = some (builtin_table kHandleApiCall)) ∧
    (∀ w, s.function_data = .wasmExportedFunctionData w →
      s.GetCode = some w.wrapper_code) ∧
    (∀ d, s.function_data = .interpreterData d →
      s.GetCode = some d.interpreter_trampoline) ∧
    (∀ c, s.function_data = .wasmJSFunctionData c → s.GetCode = some c) ∧
    (∀ c, s.function_data = .wasmCapiFunctionData c → s.GetCode = some c) ∧
    (∀ n, s.function_data = .other n → s.GetCode = none) ∧
    (s.function_data = .smi 7 → s.GetCode = some (builtin_table 7)) := by
  refine ⟨?_, ?_, ?_, ?_, ?_, ?_, ?_, ?_, ?_, ?_, ?_⟩ <;>
    first
      | (intro x hx; simp [SharedFunctionInfo.GetCode, hx])
      | (intro hx; simp [SharedFunctionInfo.GetCode, hx, builtin_table])

/-- A concrete record whose payload is builtin id 7. -/
def exBuiltin7 : SharedFunctionInfo :=
  { self := 1
    function_data := .smi 7
    name_or_scope_info := .noSharedName
    outer_slot := .theHole
    script_ref := none
    debug_info := none
    stored_inferred_name := ""
    expected_nof_properties := 0
    are_properties_final := false
    is_class_constructor := false
    optimization_disabled := false
    has_reported_binary_coverage := false
    is_user_javascript := false }

/-- Witness for C1: the dispatcher sends the concrete builtin-id-7 record to
the builtin-table entry for id 7. -/
theorem GetCode_dispatch_witness :
    exBuiltin7.GetCode = some (builtin_table 7) :=
  (GetCode_dispatch exBuiltin7).2.2.2.2.2.2.2.2.2.2 rfl

/-- The embedded position data of a scope descriptor held in the name slot,
when both exist (the guard of the first branch of
`StartPosition`/`EndPosition`/`SetPosition`). -/
def SharedFunctionInfo.scopePositionInfo
    (s : SharedFunctionInfo) : Option (Int × Int) :=
  match s.name_or_scope_info with
  | .scopeInfo info => info.position_info
  | _ => none

/-- Source position resolver (`SharedFunctionInfo::StartPosition`). -/
def SharedFunctionInfo.StartPosition (s : SharedFunctionInfo) : Int :=
  match s.scopePositionInfo with
  | some p => p.1
  | none =>
    match s.function_data with
    | .uncompiledData u => u.start_position
    | .functionTemplateInfo _ => 0
    | .smi _ => 0
    | .wasmExportedFunctionData w =>
        (w.instance_functions.getD w.function_index (0, 0)).1
    | _ => kNoSourcePosition

/-- Source position resolver (`SharedFunctionInfo::EndPosition`). -/
def SharedFunctionInfo.EndPosition (s : SharedFunctionInfo) : Int :=
  match s.scopePositionInfo with
  | some p => p.2
  | none =>
    match s.function_data with
    | .uncompiledData u => u.end_position
    | .functionTemplateInfo _ => 0
    | .smi _ => 0
    | .wasmExportedFunctionData w =>
        (w.instance_functions.getD w.function_index (0, 0)).2
    | _ => kNoSourcePosition

/-- `SharedFunctionInfo::SourceSize` is end minus start. -/
def SharedFunctionInfo.SourceSize (s : SharedFunctionInfo) : Int :=
  s.EndPosition - s.StartPosition

/-- Start position of the active deferred-parse summary (meaningful only
under `HasUncompiledData`). -/
def SharedFunctionInfo.uncompiledStart (s : SharedFunctionInfo) : Int :=
  match s.function_data with
  | .uncompiledData u => u.start_position
  | _ => 0

/-- End position of the active deferred-parse summary (meaningful only
under `HasUncompiledData`). -/
def SharedFunctionInfo.uncompiledEnd (s : SharedFunctionInfo) : Int :=
  match s.function_data with
  | .uncompiledData u => u.end_position
  | _ => 0

/-- Start of the scope descriptor's embedded position data (meaningful only
when `scopePositionInfo` is present). -/
def SharedFunctionInfo.scopeStart (s : SharedFunctionInfo) : Int :=
  ((s.scopePositionInfo).getD (0, 0)).1

/-- End of the scope descriptor's embedded position data (meaningful only
when `scopePositionInfo` is present). -/
def SharedFunctionInfo.scopeEnd (s : SharedFunctionInfo) : Int :=
  ((s.scopePositionInfo).getD (0, 0)).2

/-- Code offset of this function in the foreign module's per-function table
(meaningful only under `HasWasmExportedFunctionData`). -/
def SharedFunctionInfo.wasmExportedStart (s : SharedFunctionInfo) : Int :=
  match s.function_data with
  | .wasmExportedFunctionData w =>
      (w.instance_functions.getD w.function_index (0, 0)).1
  | _ => 0

/-- End offset of this function in the foreign module's per-function table
(meaningful only under `HasWasmExportedFunctionData`). -/
def SharedFunctionInfo.wasmExportedEnd (s : SharedFunctionInfo) : Int :=
  match s.function_data with
  | .wasmExportedFunctionData w =>
      (w.instance_functions.getD w.function_index (0, 0)).2
  | _ => 0

/-- The start-position precedence as the spec words it: (1) scope descriptor
with embedded position data, (2) deferred-parse summary, (3) host-API
function or builtin id is 0, (4) exported-foreign-function offset table,
(5) the no-position sentinel. -/
def SharedFunctionInfo.StartPositionSpec (s : SharedFunctionInfo) : Int :=
  if (s.scopePositionInfo).isSome then s.scopeStart
  else if s.HasUncompiledData then s.uncompiledStart
  else if s.IsApiFunction || s.HasBuiltinId then 0
  else if s.HasWasmExportedFunctionData then s.wasmExportedStart
  else kNoSourcePosition

/-- The end-position precedence as the spec words it (same order as
`StartPositionSpec`). -/
def SharedFunctionInfo.EndPositionSpec (s : SharedFunctionInfo) : Int :=
  if (s.scopePositionInfo).isSome then s.scopeEnd
  else if s.HasUncompiledData then s.uncompiledEnd
  else if s.IsApiFunction || s.HasBuiltinId then 0
  else if s.HasWasmExportedFunctionData then s.wasmExportedEnd
  else kNoSourcePosition

/-- Claim C2: `StartPosition` and `EndPosition` resolve by the fixed
five-step precedence the spec states: scope descriptor with embedded
positions, then deferred-parse summary (with or without cache), then 0 for
host-API/builtin records, then the foreign module's per-function
offset/end-offset table, and otherwise the no-position sentinel. -/
theorem StartEndPosition_precedence (s : SharedFunctionInfo) :
    s.StartPosition = s.StartPositionSpec ∧ s.EndPosition = s.EndPositionSpec := by
  obtain ⟨self, fd, nsi, os, sr, di, sin, enp, apf, icc, od, hrb, iuj⟩ := s
  constructor <;>
    rcases nsi with _ | nm | ⟨pi, fn, osi⟩ <;>
      (try cases pi) <;> cases fd <;>
      simp [SharedFunctionInfo.StartPosition, SharedFunctionInfo.EndPosition,
        SharedFunctionInfo.StartPositionSpec, SharedFunctionInfo.EndPositionSpec,
        SharedFunctionInfo.scopePositionInfo, SharedFunctionInfo.HasUncompiledData,
        SharedFunctionInfo.IsApiFunction, SharedFunctionInfo.HasBuiltinId,
        SharedFunctionInfo.HasWasmExportedFunctionData,
        SharedFunctionInfo.uncompiledStart, SharedFunctionInfo.uncompiledEnd,
        SharedFunctionInfo.scopeStart, SharedFunctionInfo.scopeEnd,
        SharedFunctionInfo.wasmExportedStart, SharedFunctionInfo.wasmExportedEnd]

/-- Position write-back (`SharedFunctionInfo::SetPosition`): if the name
slot holds a scope descriptor, write through its position data when it has
any (and otherwise do nothing); else if a deferred-parse summary is active,
drop its pre-parse cache (if attached) and write its stored positions;
otherwise `UNREACHABLE()`, modelled as `none`. -/
def SharedFunctionInfo.SetPosition (s : SharedFunctionInfo)
    (start_position end_position : Int) : Option SharedFunctionInfo :=
  match s.name_or_scope_info with
  | .scopeInfo info =>
    match info.position_info with
    | some _ =>
        some { s with
          name_or_scope_info := NameOrScopeInfo.scopeInfo
            { info with position_info := some (start_position, end_position) } }
    | none => some s
  | _ =>
    match s.function_data with
    | .uncompiledData u =>
        let u1 := if u.preparse_data.isSome then { u with preparse_data := none } else u
        some { s with
          function_data := FunctionData.uncompiledData
            { u1 with start_position := start_position,
                      end_position := end_position } }
    | _ => none

/-- A record whose name slot holds a scope descriptor WITHOUT embedded
position data while the payload is a compiled bytecode program. -/
def exScopeNoPos : SharedFunctionInfo :=
  { exBuiltin7 with
    function_data := .bytecodeArray { length := 3, has_source_position_table := true }
    name_or_scope_info := .scopeInfo
      { position_info := none, function_name := none, outer_scope_info := none } }

/-- Counterexample to C4 as stated: this record has neither a
position-carrying scope descriptor nor a deferred-parse payload, so the
claim says a position write must be a fatal invariant violation; but
`SetPosition` returns normally (it silently does nothing), because the code
only checks that the name slot holds a scope descriptor, not that the
descriptor carries position data. -/
theorem SetPosition_claim_counterexample :
    (exScopeNoPos.scopePositionInfo).isSome = false ∧
    exScopeNoPos.HasUncompiledData = false ∧
    exScopeNoPos.SetPosition 1 2 ≠ none := by decide

/-- Claim C4 (amended): `SetPosition` writes through the scope descriptor in
the name slot when that descriptor carries position data; when the name
slot holds no scope descriptor and the payload is a deferred-parse summary
it drops any attached pre-parse cache and writes the stored positions; it
is a fatal invariant violation exactly when the name slot holds no scope
descriptor and no deferred-parse payload is active; and when the name slot
holds a scope descriptor without position data the call returns silently
without writing anything. -/
theorem SetPosition_characterization (s : SharedFunctionInfo) (a b : Int) :
    (s.SetPosition a b = none ↔
      s.HasScopeDescriptor = false ∧ s.HasUncompiledData = false) ∧
    (∀ info p, s.name_or_scope_info = .scopeInfo info →
      info.position_info = some p →
      s.SetPosition a b = some { s with
        name_or_scope_info := NameOrScopeInfo.scopeInfo
          { info with position_info := some (a, b) } }) ∧
    (∀ info, s.name_or_scope_info = .scopeInfo info →
      info.position_info = none → s.SetPosition a b = some s) ∧
    (∀ u, s.HasScopeDescriptor = false → s.function_data = .uncompiledData u →
      s.SetPosition a b = some { s with
        function_data := FunctionData.uncompiledData
          { u with start_position := a, end_position := b, preparse_data := none } }) := by
  refine ⟨?_, ?_, ?_, ?_⟩
  · obtain ⟨self, fd, nsi, os, sr, di, sin, enp, apf, icc, od, hrb, iuj⟩ := s
    rcases nsi with _ | nm | ⟨pi, fn, osi⟩ <;> (try cases pi) <;> cases fd <;>
      simp [SharedFunctionInfo.SetPosition, SharedFunctionInfo.HasScopeDescriptor,
        SharedFunctionInfo.HasUncompiledData]
  · intro info p h1 h2
    simp [SharedFunctionInfo.SetPosition, h1, h2]
  · intro info h1 h2
    simp [SharedFunctionInfo.SetPosition, h1, h2]
  · intro u h1 h2
    have hn : ∀ info, s.name_or_scope_info ≠ .scopeInfo info := by
      intro info hc
      simp [SharedFunctionInfo.HasScopeDescriptor, hc] at h1
    cases hnsi : s.name_or_scope_info with
    | noSharedName =>
        cases hpp : u.preparse_data <;>
          simp [SharedFunctionInfo.SetPosition, hnsi, h2, hpp]
    | name nm =>
        cases hpp : u.preparse_data <;>
          simp [SharedFunctionInfo.SetPosition, hnsi, h2, hpp]
    | scopeInfo info => exact absurd hnsi (hn info)

/-- A record with a deferred-parse payload at positions 100–250 and no
pre-parse cache, matching the spec's `SetPosition` scenario. -/
def exDeferred : SharedFunctionInfo :=
  { exBuiltin7 with
    function_data := .uncompiledData
      { inferred_name := "f", start_position := 100, end_position := 250,
        preparse_data := none }
    name_or_scope_info := .noSharedName }

/-- Witness for C4 (amended), running the spec's scenario: the deferred
record has `SourceSize = 150`; `SetPosition 120 260` rewrites the stored
positions through the payload; the updated record has `SourceSize = 140`. -/
theorem SetPosition_characterization_witness :
    exDeferred.SourceSize = 150 ∧
    exDeferred.SetPosition 120 260 = some { exDeferred with
      function_data := FunctionData.uncompiledData
        { inferred_name := "f", start_position := 120,
          end_position := 260, preparse_data := none } } ∧
    ({ exDeferred with
      function_data := FunctionData.uncompiledData
        { inferred_name := "f", start_position := 120,
          end_position := 260, preparse_data := none } }
      : SharedFunctionInfo).SourceSize = 140 := by
  refine ⟨by decide, ?_, by decide⟩
  exact (SetPosition_characterization exDeferred 120 260).2.2.2
    { inferred_name := "f", start_position := 100, end_position := 250,
      preparse_data := none } rfl rfl

/-- Modelled from the spec: the record's inferred display name — stored in
the deferred-parse summary when one is active, and in auxiliary record
state otherwise (the accessor is header code outside `src/`). -/
def SharedFunctionInfo.inferredName (s : SharedFunctionInfo) : String :=
  match s.function_data with
  | .uncompiledData u => u.inferred_name
  | _ => s.stored_inferred_name

/-- Compiled-metadata discard
(`SharedFunctionInfo::DiscardCompiledMetadata`): when the record is
compiled, replace the transient compiled-only content of the reused outer
slot with the statically resolvable outer scope descriptor of the scope
descriptor in the name slot (or the hole); otherwise leave the record
unchanged.  The GC slot-update notification is a side effect outside the
record state. -/
def SharedFunctionInfo.DiscardCompiledMetadata
    (s : SharedFunctionInfo) : SharedFunctionInfo :=
  if s.is_compiled then
    let outer : OuterSlot :=
      match s.name_or_scope_info with
      | .scopeInfo info =>
        match info.outer_scope_info with
        | some n => OuterSlot.scopeInfoRef n
        | none => OuterSlot.theHole
      | _ => OuterSlot.theHole
    { s with outer_slot := outer }
  else s

/-- Compiled-payload discard (`SharedFunctionInfo::DiscardCompiled`):
snapshot the inferred name and both positions, discard compiled metadata,
then either drop the pre-parse cache of an existing deferred-parse summary
in place or install a fresh summary built from the snapshot. -/
def SharedFunctionInfo.DiscardCompiled
    (s : SharedFunctionInfo) : SharedFunctionInfo :=
  let inferred_name_val := s.inferredName
  let start_position := s.StartPosition
  let end_position := s.EndPosition
  let s1 := s.DiscardCompiledMetadata
  if s1.HasUncompiledDataWithPreparseData then
    s1.ClearPreparseData
  else
    { s1 with
      function_data := FunctionData.uncompiledData
        { inferred_name := inferred_name_val, start_position := start_position,
          end_position := end_position, preparse_data := none } }

/-- Discarding compiled metadata touches only the reused outer slot. -/
theorem DiscardCompiledMetadata_fields (s : SharedFunctionInfo) :
    (s.DiscardCompiledMetadata).function_data = s.function_data ∧
    (s.DiscardCompiledMetadata).name_or_scope_info = s.name_or_scope_info ∧
    (s.DiscardCompiledMetadata).stored_inferred_name = s.stored_inferred_name := by
  unfold SharedFunctionInfo.DiscardCompiledMetadata
  split <;> simp

/-- The scope-descriptor position data as a function of the name slot
alone (definitionally the body of `scopePositionInfo`). -/
def scopePositionInfoOf (nsi : NameOrScopeInfo) : Option (Int × Int) :=
  match nsi with
  | .scopeInfo info => info.position_info
  | _ => none

/-- The start-position computation as a pure function of the two record
fields it reads. -/
def startPositionOf (nsi : NameOrScopeInfo) (fd : FunctionData) : Int :=
  match scopePositionInfoOf nsi with
  | some p => p.1
  | none =>
    match fd with
    | .uncompiledData u => u.start_position
    | .functionTemplateInfo _ => 0
    | .smi _ => 0
    | .wasmExportedFunctionData w =>
        (w.instance_functions.getD w.function_index (0, 0)).1
    | _ => kNoSourcePosition

/-- The end-position computation as a pure function of the two record
fields it reads. -/
def endPositionOf (nsi : NameOrScopeInfo) (fd : FunctionData) : Int :=
  match scopePositionInfoOf nsi with
  | some p => p.2
  | none =>
    match fd with
    | .uncompiledData u => u.end_position
    | .functionTemplateInfo _ => 0
    | .smi _ => 0
    | .wasmExportedFunctionData w =>
        (w.instance_functions.getD w.function_index (0, 0)).2
    | _ => kNoSourcePosition

/-- The inferred-name computation as a pure function of the fields it
reads. -/
def inferredNameOf (fd : FunctionData) (stored : String) : String :=
  match fd with
  | .uncompiledData u => u.inferred_name
  | _ => stored

/-- The deferred-parse predicate as a pure function of the payload. -/
def hasUncompiledDataOf (fd : FunctionData) : Bool :=
  match fd with
  | .uncompiledData _ => true
  | _ => false

/-- The pre-parse-cache predicate as a pure function of the payload. -/
def hasPreparseOf (fd : FunctionData) : Bool :=
  match fd with
  | .uncompiledData u => u.preparse_data.isSome
  | _ => false

/-- Start position only reads the name slot and the payload. -/
theorem StartPosition_eq_of (s : SharedFunctionInfo) :
    s.StartPosition = startPositionOf s.name_or_scope_info s.function_data := rfl

/-- End position only reads the name slot and the payload. -/
theorem EndPosition_eq_of (s : SharedFunctionInfo) :
    s.EndPosition = endPositionOf s.name_or_scope_info s.function_data := rfl

/-- Inferred name only reads the payload and the auxiliary name store. -/
theorem inferredName_eq_of (s : SharedFunctionInfo) :
    s.inferredName = inferredNameOf s.function_data s.stored_inferred_name := rfl

/-- The deferred-parse predicate only reads the payload. -/
theorem HasUD_eq_of (s : SharedFunctionInfo) :
    s.HasUncompiledData = hasUncompiledDataOf s.function_data := rfl

/-- The pre-parse-cache predicate only reads the payload. -/
theorem HasUDWP_eq_of (s : SharedFunctionInfo) :
    s.HasUncompiledDataWithPreparseData = hasPreparseOf s.function_data := rfl

/-- Restatement of `DiscardCompiled` with the cache test moved to the
original record (legal because discarding metadata keeps the payload). -/
theorem DiscardCompiled_cases (s : SharedFunctionInfo) :
    s.DiscardCompiled =
      if s.HasUncompiledDataWithPreparseData then
        (s.DiscardCompiledMetadata).ClearPreparseData
      else
        { s.DiscardCompiledMetadata with
          function_data := FunctionData.uncompiledData
            { inferred_name := s.inferredName, start_position := s.StartPosition,
              end_position := s.EndPosition, preparse_data := none } } := by
  have h : (s.DiscardCompiledMetadata).HasUncompiledDataWithPreparseData
      = s.HasUncompiledDataWithPreparseData := by
    rw [HasUDWP_eq_of (s.DiscardCompiledMetadata), HasUDWP_eq_of s,
      (DiscardCompiledMetadata_fields s).1]
  simp only [SharedFunctionInfo.DiscardCompiled, h]

/-- Claim C3: for a discard-eligible record, `DiscardCompiled` leaves a
deferred-parse summary without pre-parse cache as the payload (dropping an
existing cache in place when one is attached), and the record still reports
the same `StartPosition`, `EndPosition` and inferred name, because all
three are snapshotted before any mutation. -/
theorem DiscardCompiled_roundtrip (s : SharedFunctionInfo)
    (_hdisc : s.CanDiscardCompiled = true) :
    (s.DiscardCompiled).StartPosition = s.StartPosition ∧
    (s.DiscardCompiled).EndPosition = s.EndPosition ∧
    (s.DiscardCompiled).inferredName = s.inferredName ∧
    (s.DiscardCompiled).HasUncompiledData = true ∧
    (s.DiscardCompiled).HasUncompiledDataWithPreparseData = false := by
  clear _hdisc
  obtain ⟨hfd1, hnsi1, hsin1⟩ := DiscardCompiledMetadata_fields s
  rw [DiscardCompiled_cases]
  by_cases hc : s.HasUncompiledDataWithPreparseData = true
  · rw [if_pos hc]
    rw [HasUDWP_eq_of] at hc
    cases hfd : s.function_data <;> rw [hfd] at hc <;> simp [hasPreparseOf] at hc
    rename_i u
    have hr : (s.DiscardCompiledMetadata).ClearPreparseData
        = { s.DiscardCompiledMetadata with
            function_data := FunctionData.uncompiledData
              { u with preparse_data := none } } := by
      simp only [SharedFunctionInfo.ClearPreparseData, hfd1, hfd]
    rw [hr]
    refine ⟨?_, ?_, ?_, ?_, ?_⟩ <;>
      simp only [StartPosition_eq_of, EndPosition_eq_of, inferredName_eq_of,
        HasUD_eq_of, HasUDWP_eq_of, hnsi1, hsin1, hfd] <;>
      cases h2 : scopePositionInfoOf s.name_or_scope_info <;>
      simp [startPositionOf, endPositionOf, inferredNameOf, hasUncompiledDataOf,
        hasPreparseOf, h2]
  · rw [if_neg hc]
    refine ⟨?_, ?_, ?_, ?_, ?_⟩ <;>
      simp only [StartPosition_eq_of, EndPosition_eq_of, inferredName_eq_of,
        HasUD_eq_of, HasUDWP_eq_of, hnsi1, hsin1] <;>
      cases h2 : scopePositionInfoOf s.name_or_scope_info <;>
      simp [startPositionOf, endPositionOf, inferredNameOf, hasUncompiledDataOf,
        hasPreparseOf, h2]

/-- A compiled record (bytecode payload, scope descriptor with embedded
positions 10–90) that is eligible for discarding. -/
def exCompiled : SharedFunctionInfo :=
  { exBuiltin7 with
    function_data := .bytecodeArray { length := 12, has_source_position_table := true }
    name_or_scope_info := .scopeInfo
      { position_info := some (10, 90), function_name := some "f",
        outer_scope_info := some 5 }
    stored_inferred_name := "inferred" }

/-- Witness for C3: discarding the concrete compiled record preserves its
positions 10–90 and inferred name, and leaves an uncompiled payload without
a pre-parse cache. -/
theorem DiscardCompiled_roundtrip_witness :
    exCompiled.CanDiscardCompiled = true ∧
    (exCompiled.DiscardCompiled).StartPosition = exCompiled.StartPosition ∧
    (exCompiled.DiscardCompiled).EndPosition = exCompiled.EndPosition ∧
    (exCompiled.DiscardCompiled).inferredName = exCompiled.inferredName ∧
    (exCompiled.DiscardCompiled).HasUncompiledData = true ∧
    (exCompiled.DiscardCompiled).HasUncompiledDataWithPreparseData = false :=
  ⟨by decide, DiscardCompiled_roundtrip exCompiled (by decide)⟩

/-- `HasBreakInfo` (from the source): false without debug info, else the
debug info's break-info bit. -/
def SharedFunctionInfo.HasBreakInfo (s : SharedFunctionInfo) : Bool :=
  match s.debug_info with
  | none => false
  | some info => info.has_break_info

/-- `HasCoverageInfo` (from the source): false without debug info, else the
debug info's coverage bit. -/
def SharedFunctionInfo.HasCoverageInfo (s : SharedFunctionInfo) : Bool :=
  match s.debug_info with
  | none => false
  | some info => info.has_coverage_info

/-- Length of the attached bytecode program (meaningful only under
`HasBytecodeArray`). -/
def SharedFunctionInfo.bytecodeLength (s : SharedFunctionInfo) : Nat :=
  match s.function_data with
  | .bytecodeArray b => b.length
  | _ => 0

/-- The outcome of the inlineability classifier. -/
inductive Inlineability where
  | kHasNoScript
  | kNeedsBinaryCoverage
  | kHasOptimizationDisabled
  | kIsBuiltin
  | kIsNotUserCode
  | kHasNoBytecode
  | kExceedsBytecodeLimit
  | kMayContainBreakPoints
  | kIsInlineable
deriving DecidableEq, Repr

/-- Inlineability classifier (`SharedFunctionInfo::GetInlineability`);
`precise_binary_coverage` is the isolate's precise-coverage mode and
`max_inlined_bytecode_size` the configured limit, both host-supplied
flags. -/
def SharedFunctionInfo.GetInlineability (s : SharedFunctionInfo)
    (precise_binary_coverage : Bool) (max_inlined_bytecode_size : Nat) :
    Inlineability :=
  if !s.script_ref.isSome then .kHasNoScript
  else if precise_binary_coverage && !s.has_reported_binary_coverage then
    .kNeedsBinaryCoverage
  else if s.optimization_disabled then .kHasOptimizationDisabled
  else if s.HasBuiltinId then .kIsBuiltin
  else if !s.is_user_javascript then .kIsNotUserCode
  else if !s.HasBytecodeArray then .kHasNoBytecode
  else if s.bytecodeLength > max_inlined_bytecode_size then .kExceedsBytecodeLimit
  else if s.HasBreakInfo then .kMayContainBreakPoints
  else .kIsInlineable

/-- First-match-wins evaluation of an ordered decision list. -/
def firstMatch : List (Bool × Inlineability) → Inlineability → Inlineability
  | [], dflt => dflt
  | (c, r) :: rest, dflt => if c then r else firstMatch rest dflt

/-- The inlineability conditions as the spec words them: an ordered decision
list, first match wins. -/
def inlineabilityDecisionList (s : SharedFunctionInfo)
    (precise_binary_coverage : Bool) (max_inlined_bytecode_size : Nat) :
    Inlineability :=
  firstMatch
    [ (!s.script_ref.isSome, .kHasNoScript),
      (precise_binary_coverage && !s.has_reported_binary_coverage,
        .kNeedsBinaryCoverage),
      (s.optimization_disabled, .kHasOptimizationDisabled),
      (s.HasBuiltinId, .kIsBuiltin),
      (!s.is_user_javascript, .kIsNotUserCode),
      (!s.HasBytecodeArray, .kHasNoBytecode),
      (decide (s.bytecodeLength > max_inlined_bytecode_size),
        .kExceedsBytecodeLimit),
      (s.HasBreakInfo, .kMayContainBreakPoints) ]
    .kIsInlineable

/-- Claim C5: `GetInlineability` evaluates its conditions as an ordered
first-match-wins decision list in exactly the spec's order, and in
particular a record with optimization explicitly disabled (once the two
earlier guards, source-unit presence and pending precise coverage, have
passed) classifies as `kHasOptimizationDisabled` regardless of bytecode
presence. -/
theorem GetInlineability_order (s : SharedFunctionInfo)
    (pc : Bool) (ms : Nat) :
    s.GetInlineability pc ms = inlineabilityDecisionList s pc ms ∧
    (s.script_ref.isSome = true →
      (pc && !s.has_reported_binary_coverage) = false →
      s.optimization_disabled = true →
      s.GetInlineability pc ms = .kHasOptimizationDisabled) := by
  constructor
  · simp [SharedFunctionInfo.GetInlineability, inlineabilityDecisionList,
      firstMatch]
  · intro h1 h2 h3
    simp [SharedFunctionInfo.GetInlineability, h1, h2, h3]

/-- A record with optimization disabled, an owning script, no coverage
pending, and a bytecode payload. -/
def exOptOut : SharedFunctionInfo :=
  { exBuiltin7 with
    function_data := .bytecodeArray { length := 7, has_source_position_table := true }
    script_ref := some 3
    optimization_disabled := true
    is_user_javascript := true }

/-- Witness for C5: the concrete opted-out record classifies as
`kHasOptimizationDisabled` even though it has bytecode. -/
theorem GetInlineability_order_witness :
    exOptOut.GetInlineability false 100 = Inlineability.kHasOptimizationDisabled ∧
    exOptOut.HasBytecodeArray = true :=
  ⟨(GetInlineability_order exOptOut false 100).2 rfl rfl rfl, by decide⟩

/-- Modelled from the spec: the mixing function combining the two hash
inputs (`base::hash_combine` lives outside `src/`); any fixed computable
mix is faithful to the claim, which constrains only the inputs. -/
def hash_combine (start_pos script_id : Int) : Nat :=
  ((start_pos + 1073741823).toNat * 2654435769 +
    (script_id + 1073741823).toNat * 2246822519) % 4294967296

/-- The owning script's id, taken as 0 when no script is associated
(`script().IsScript() ? Script::cast(script()).id() : 0`). -/
def SharedFunctionInfo.scriptIdOrZero (s : SharedFunctionInfo) : Int :=
  match s.script_ref with
  | some id => (id : Int)
  | none => 0

/-- Record hash (`SharedFunctionInfo::Hash`): combines the start position
with the owning script's id (0 if none). -/
def SharedFunctionInfo.Hash (s : SharedFunctionInfo) : Nat :=
  hash_combine s.StartPosition s.scriptIdOrZero

/-- Claim C6: `Hash` is a pure function of exactly the start position and
the owning script's id (0 when absent): it equals the mix of those two
inputs, and any two records agreeing on both inputs hash identically. -/
theorem Hash_pure_of_inputs (s t : SharedFunctionInfo) :
    s.Hash = hash_combine s.StartPosition s.scriptIdOrZero ∧
    (s.StartPosition = t.StartPosition → s.script_ref = t.script_ref →
      s.Hash = t.Hash) := by
  refine ⟨rfl, ?_⟩
  intro h1 h2
  simp [SharedFunctionInfo.Hash, SharedFunctionInfo.scriptIdOrZero, h1, h2]

/-- A second record, structurally different from `exDeferred` (different
identity, name slot and flags) but with the same start position and no
owning script. -/
def exDeferredTwin : SharedFunctionInfo :=
  { exDeferred with
    self := 99
    name_or_scope_info := .name "g"
    stored_inferred_name := "other"
    optimization_disabled := true }

/-- Witness for C6: the two distinct records share start position and
(absent) owning unit, so they hash identically. -/
theorem Hash_pure_of_inputs_witness :
    exDeferred ≠ exDeferredTwin ∧ exDeferred.Hash = exDeferredTwin.Hash :=
  ⟨by decide, (Hash_pure_of_inputs exDeferred exDeferredTwin).2 (by decide) rfl⟩

/-- A slot of a script's `shared_function_infos` weak table: a weak
reference to a record (by heap identity), a weak reference cleared by the
collector, or the explicit strong-undefined cleared marker. -/
inductive Slot where
  | weak (sfi_id : Nat)
  | clearedWeak
  | undef
deriving DecidableEq, Repr

/-- A script's function table. -/
abbrev WeakTable := List Slot

/-- The association state `SetScript` operates on: the record itself and
the per-script weak function tables, keyed by script id. -/
structure SFIHeap where
  sfi : SharedFunctionInfo
  tables : List (Nat × WeakTable)
deriving DecidableEq, Repr

/-- Update the (first) table bound to a script id. -/
def updateTable : List (Nat × WeakTable) → Nat → (WeakTable → WeakTable) →
    List (Nat × WeakTable)
  | [], _, _ => []
  | (k, t) :: rest, sid, f =>
      if k = sid then (k, f t) :: rest else (k, t) :: updateTable rest sid f

/-- Look up the (first) table bound to a script id. -/
def lookupTable : List (Nat × WeakTable) → Nat → Option WeakTable
  | [], _ => none
  | (k, t) :: rest, sid => if k = sid then some t else lookupTable rest sid

/-- Looking up an updated key sees the update. -/
theorem lookupTable_updateTable (ts : List (Nat × WeakTable)) (sid : Nat)
    (f : WeakTable → WeakTable) :
    lookupTable (updateTable ts sid f) sid = (lookupTable ts sid).map f := by
  induction ts with
  | nil => rfl
  | cons p rest ih =>
      obtain ⟨k, t⟩ := p
      by_cases hk : k = sid <;> simp [updateTable, lookupTable, hk, ih]

/-- Source-unit association registry (`SharedFunctionInfo::SetScript`):
no-op when the new target equals the current one; attaching to a real
script writes a weak reference into the new script's table at
`function_literal_id`; detaching locates the old script's slot and replaces
it with the strong-undefined cleared marker only when it is in-bounds and
still weakly refers to this exact record; finally the record's own script
reference is updated.  The pre-parse cache is reset first when requested. -/
def SetScript (h : SFIHeap) (script_object : Option Nat)
    (function_literal_id : Nat) (reset_preparsed_scope_data : Bool) : SFIHeap :=
  if h.sfi.script_ref = script_object then h
  else
    let s1 := if reset_preparsed_scope_data &&
        h.sfi.HasUncompiledDataWithPreparseData
      then h.sfi.ClearPreparseData else h.sfi
    match script_object with
    | some new_sid =>
        { sfi := { s1 with script_ref := some new_sid },
          tables := updateTable h.tables new_sid
            (fun list => list.set function_literal_id (Slot.weak s1.self)) }
    | none =>
        match s1.script_ref with
        | some old_sid =>
            { sfi := { s1 with script_ref := none },
              tables := updateTable h.tables old_sid (fun infos =>
                if function_literal_id < infos.length then
                  match infos.getD function_literal_id Slot.undef with
                  | Slot.weak n =>
                      if n = s1.self then
                        infos.set function_literal_id Slot.undef
                      else infos
                  | _ => infos
                else infos) }
        | none => { sfi := { s1 with script_ref := none }, tables := h.tables }

/-- Clearing the pre-parse cache touches only the payload. -/
theorem ClearPreparseData_fields (s : SharedFunctionInfo) :
    (s.ClearPreparseData).script_ref = s.script_ref ∧
    (s.ClearPreparseData).self = s.self := by
  unfold SharedFunctionInfo.ClearPreparseData
  cases s.function_data <;> simp

/-- After any `SetScript`, the record's script reference is the target. -/
theorem SetScript_script_ref (h : SFIHeap) (u : Option Nat)
    (flid : Nat) (r : Bool) :
    (SetScript h u flid r).sfi.script_ref = u := by
  unfold SetScript
  by_cases he : h.sfi.script_ref = u
  · rw [if_pos he]; exact he
  · rw [if_neg he]
    have hs1 : (if r && h.sfi.HasUncompiledDataWithPreparseData
        then h.sfi.ClearPreparseData else h.sfi).script_ref = h.sfi.script_ref := by
      split
      · exact (ClearPreparseData_fields h.sfi).1
      · rfl
    cases u with
    | some sid => simp
    | none =>
        simp only []
        cases hsr : (if r && h.sfi.HasUncompiledDataWithPreparseData
            then h.sfi.ClearPreparseData else h.sfi).script_ref <;> simp

/-- When the new target already equals the record's current script
reference, `SetScript` returns the state unchanged. -/
theorem SetScript_noop (h : SFIHeap) (u : Option Nat) (flid : Nat) (r : Bool)
    (he : h.sfi.script_ref = u) : SetScript h u flid r = h := by
  unfold SetScript
  rw [if_pos he]

/-- Claim C7: `SetScript` returns immediately when the new target equals
the current one, so a second call with the same unit and the same position
id is a complete no-op — no table write, no pre-parse-cache reset, no
change to the record's script reference. -/
theorem SetScript_idempotent (h : SFIHeap) (u : Option Nat)
    (flid : Nat) (r r2 : Bool) :
    (h.sfi.script_ref = u → SetScript h u flid r = h) ∧
    SetScript (SetScript h u flid r) u flid r2 = SetScript h u flid r :=
  ⟨fun he => SetScript_noop h u flid r he,
   SetScript_noop (SetScript h u flid r) u flid r2
     (SetScript_script_ref h u flid r)⟩

/-- A two-script heap: the record is attached to script 1 at position 0,
script 2's table is empty. -/
def exHeap : SFIHeap :=
  { sfi := { exDeferred with script_ref := some 1 }
    tables := [(1, [Slot.weak exBuiltin7.self]), (2, [])] }

/-- Witness for C7: re-attaching the concrete heap's record to its current
script is a no-op, and a repeated call equals a single call. -/
theorem SetScript_idempotent_witness :
    SetScript exHeap (some 1) 0 false = exHeap ∧
    SetScript (SetScript exHeap (some 2) 0 false) (some 2) 0 true =
      SetScript exHeap (some 2) 0 false :=
  ⟨(SetScript_idempotent exHeap (some 1) 0 false false).1 rfl,
   (SetScript_idempotent exHeap (some 2) 0 false true).2⟩

/-- Claim C8: detaching a record from its old script clears the old
script's slot — writing the explicit strong-undefined marker — exactly when
the position id is within the table's bounds and the slot still weakly
refers to this record's identity; a repurposed, emptied or out-of-range
slot is left unchanged, no error is raised, and the record's own script
reference is updated to none in every case. -/
theorem SetScript_detach_tolerant (h : SFIHeap) (a flid : Nat) (r : Bool)
    (infos : WeakTable)
    (href : h.sfi.script_ref = some a)
    (htab : lookupTable h.tables a = some infos) :
    (SetScript h none flid r).sfi.script_ref = none ∧
    lookupTable (SetScript h none flid r).tables a =
      some (if flid < infos.length ∧
              infos.getD flid Slot.undef = Slot.weak h.sfi.self
            then infos.set flid Slot.undef
            else infos) := by
  refine ⟨SetScript_script_ref h none flid r, ?_⟩
  have hne : h.sfi.script_ref ≠ none := by rw [href]; simp
  unfold SetScript
  rw [if_neg hne]
  have hs1r : (if r && h.sfi.HasUncompiledDataWithPreparseData
      then h.sfi.ClearPreparseData else h.sfi).script_ref = some a := by
    split
    · rw [(ClearPreparseData_fields h.sfi).1]; exact href
    · exact href
  have hs1s : (if r && h.sfi.HasUncompiledDataWithPreparseData
      then h.sfi.ClearPreparseData else h.sfi).self = h.sfi.self := by
    split
    · exact (ClearPreparseData_fields h.sfi).2
    · rfl
  simp only [hs1r, hs1s, lookupTable_updateTable, htab, Option.map_some]
  by_cases hb : flid < infos.length
  · cases hslot : infos.getD flid Slot.undef with
    | weak n =>
        have hel : infos[flid] = Slot.weak n := by
          rw [← List.getD_eq_getElem infos Slot.undef hb, hslot]
        by_cases hn : n = h.sfi.self
        · subst hn
          simp [hb, hslot, hel]
        · simp [hb, hslot, hel, hn]
    | clearedWeak =>
        have hel : infos[flid] = Slot.clearedWeak := by
          rw [← List.getD_eq_getElem infos Slot.undef hb, hslot]
        simp [hb, hslot, hel]
    | undef =>
        have hel : infos[flid] = Slot.undef := by
          rw [← List.getD_eq_getElem infos Slot.undef hb, hslot]
        simp [hb, hslot, hel]
  · simp [hb]

/-- A heap whose script-1 slot at position 0 has been repurposed for a
different record (identity 77), while our record still believes it is
attached to script 1. -/
def exHeapStale : SFIHeap :=
  { sfi := { exDeferred with script_ref := some 1 }
    tables := [(1, [Slot.weak 77])] }

/-- Witness for C8: detaching from the stale heap leaves the repurposed
slot untouched and still updates the record's script reference. -/
theorem SetScript_detach_tolerant_witness :
    (SetScript exHeapStale none 0 false).sfi.script_ref = none ∧
    lookupTable (SetScript exHeapStale none 0 false).tables 1 =
      some [Slot.weak 77] := by
  have := SetScript_detach_tolerant exHeapStale 1 0 false [Slot.weak 77]
    rfl rfl
  exact ⟨this.1, by rw [this.2]; decide⟩

/-- The slice of a parsed function literal these updaters read. -/
structure FunctionLiteral where
  expected_property_count : Nat
  should_eager_compile : Bool
deriving DecidableEq, Repr

/-- The 8-bit field maximum (`kMaxUInt8`). -/
def kMaxUInt8 : Nat := 255

/-- Property estimate from a literal
(`SharedFunctionInfo::get_property_estimate_from_literal`): the literal's
count, plus the already-stored count for class constructors; the function's
`uint16_t` return type reduces the `int` sum mod 2^16. -/
def SharedFunctionInfo.get_property_estimate_from_literal
    (s : SharedFunctionInfo) (literal : FunctionLiteral) : Nat :=
  (literal.expected_property_count +
    (if s.is_class_constructor then s.expected_nof_properties else 0)) % 65536

/-- Non-finalizing update
(`SharedFunctionInfo::UpdateExpectedNofPropertiesFromEstimate`): store the
estimate capped at the 8-bit maximum.  Note it does not consult the
finalized bit. -/
def SharedFunctionInfo.UpdateExpectedNofPropertiesFromEstimate
    (s : SharedFunctionInfo) (literal : FunctionLiteral) : SharedFunctionInfo :=
  { s with
    expected_nof_properties :=
      min (s.get_property_estimate_from_literal literal) kMaxUInt8 }

/-- Finalizing update
(`SharedFunctionInfo::UpdateAndFinalizeExpectedNofPropertiesFromEstimate`):
return unchanged when already finalized; otherwise bump a zero estimate to
2, cap at the 8-bit maximum, store it and set the finalized bit. -/
def SharedFunctionInfo.UpdateAndFinalizeExpectedNofPropertiesFromEstimate
    (s : SharedFunctionInfo) (literal : FunctionLiteral) : SharedFunctionInfo :=
  if s.are_properties_final then s
  else
    let estimate := s.get_property_estimate_from_literal literal
    let estimate := if estimate = 0 then 2 else estimate
    { s with expected_nof_properties := min estimate kMaxUInt8,
             are_properties_final := true }

/-- A record whose property estimate has been finalized at 5. -/
def exFinalized : SharedFunctionInfo :=
  { exBuiltin7 with expected_nof_properties := 5, are_properties_final := true }

/-- A literal with a different (non-zero) property count. -/
def exLiteral : FunctionLiteral :=
  { expected_property_count := 10, should_eager_compile := false }

/-- A not-yet-finalized record with stored estimate 0. -/
def exUnfinalized : SharedFunctionInfo :=
  { exBuiltin7 with expected_nof_properties := 0, are_properties_final := false }

/-- A literal whose property count wraps the `uint16_t` estimate to 0. -/
def exLiteralWrap : FunctionLiteral :=
  { expected_property_count := 65536, should_eager_compile := true }

/-- Counterexample to C9 as stated: first, on a record whose finalized bit
is set, the non-finalizing update operation of this core still overwrites
the stored estimate (5 becomes 10), because it never checks the finalized
bit; second, a property count of 65536 wraps to 0 through the estimate's
`uint16_t` return type, so the value written is 0 (or 2 when finalizing),
not the 8-bit cap — the updates are not wrap-free. -/
theorem PropertyCount_claim_counterexample :
    exFinalized.are_properties_final = true ∧
    (exFinalized.UpdateExpectedNofPropertiesFromEstimate
        exLiteral).expected_nof_properties = 10 ∧
    exFinalized.expected_nof_properties = 5 ∧
    (exUnfinalized.UpdateExpectedNofPropertiesFromEstimate
        exLiteralWrap).expected_nof_properties = 0 ∧
    (exUnfinalized.UpdateAndFinalizeExpectedNofPropertiesFromEstimate
        exLiteralWrap).expected_nof_properties = 2 := by decide

/-- Claim C9 (amended): each property-count update stores exactly
`min (estimate, 255)`, where the estimate has first been reduced mod 2^16
by the `uint16_t` return type of the estimate function (and a zero estimate
is bumped to 2 by the finalizing updater); within the 16-bit range an
estimate of 255 or more is stored as exactly the 8-bit maximum — saturated,
not reduced mod 256.  Once the finalized bit is set the finalizing updater
is a complete no-op, but the non-finalizing updater does not consult the
finalized bit and may still change the stored estimate. -/
theorem PropertyCount_saturation_finalization
    (s : SharedFunctionInfo) (literal : FunctionLiteral) :
    (s.UpdateExpectedNofPropertiesFromEstimate
        literal).expected_nof_properties
      = min (s.get_property_estimate_from_literal literal) kMaxUInt8 ∧
    (kMaxUInt8 ≤ s.get_property_estimate_from_literal literal →
      (s.UpdateExpectedNofPropertiesFromEstimate
          literal).expected_nof_properties = kMaxUInt8) ∧
    (s.are_properties_final = false →
      (s.UpdateAndFinalizeExpectedNofPropertiesFromEstimate
          literal).expected_nof_properties
        = min (if s.get_property_estimate_from_literal literal = 0 then 2
               else s.get_property_estimate_from_literal literal) kMaxUInt8) ∧
    (s.are_properties_final = false →
      kMaxUInt8 ≤ s.get_property_estimate_from_literal literal →
      (s.UpdateAndFinalizeExpectedNofPropertiesFromEstimate
          literal).expected_nof_properties = kMaxUInt8) ∧
    (s.are_properties_final = true →
      s.UpdateAndFinalizeExpectedNofPropertiesFromEstimate literal = s) := by
  refine ⟨rfl, ?_, ?_, ?_, ?_⟩
  · intro h
    simp only [SharedFunctionInfo.UpdateExpectedNofPropertiesFromEstimate]
    exact min_eq_right h
  · intro hf
    simp only [SharedFunctionInfo.UpdateAndFinalizeExpectedNofPropertiesFromEstimate,
      hf, Bool.false_eq_true, if_false]
  · intro hf h
    simp only [SharedFunctionInfo.UpdateAndFinalizeExpectedNofPropertiesFromEstimate,
      hf, Bool.false_eq_true, if_false]
    have h0 : s.get_property_estimate_from_literal literal ≠ 0 := by
      intro h0
      rw [h0] at h
      exact absurd h (by decide)
    rw [if_neg h0]
    exact min_eq_right h
  · intro hf
    simp [SharedFunctionInfo.UpdateAndFinalizeExpectedNofPropertiesFromEstimate, hf]

/-- A literal whose property count exceeds the 8-bit range but stays within
the 16-bit range. -/
def exLiteralBig : FunctionLiteral :=
  { expected_property_count := 1000, should_eager_compile := true }

/-- Witness for C9 (amended): the over-range estimate 1000 is stored as
exactly 255 by both updaters (saturated, not 1000 mod 256 = 232), and a
finalizing update on an already-finalized record changes nothing. -/
theorem PropertyCount_saturation_finalization_witness :
    kMaxUInt8 ≤ exUnfinalized.get_property_estimate_from_literal exLiteralBig ∧
    (exUnfinalized.UpdateExpectedNofPropertiesFromEstimate
        exLiteralBig).expected_nof_properties = kMaxUInt8 ∧
    (exUnfinalized.UpdateAndFinalizeExpectedNofPropertiesFromEstimate
        exLiteralBig).expected_nof_properties = kMaxUInt8 ∧
    (exFinalized.UpdateAndFinalizeExpectedNofPropertiesFromEstimate
        exLiteral) = exFinalized :=
  ⟨by decide,
   (PropertyCount_saturation_finalization exUnfinalized exLiteralBig).2.1
     (by decide),
   (PropertyCount_saturation_finalization exUnfinalized exLiteralBig).2.2.2.1
     rfl (by decide),
   (PropertyCount_saturation_finalization exFinalized exLiteral).2.2.2.2 rfl⟩

/-- Modelled from the spec: the resolved display name `Name()` — the
no-name sentinel and a scope descriptor without a function name resolve to
the empty string (the accessor is header code outside `src/`). -/
def SharedFunctionInfo.Name (s : SharedFunctionInfo) : String :=
  match s.name_or_scope_info with
  | .noSharedName => ""
  | .name str => str
  | .scopeInfo info => info.function_name.getD ""

/-- Debug-facing name (`SharedFunctionInfo::DebugName`): the resolved name
when non-empty, otherwise the inferred name. -/
def SharedFunctionInfo.DebugName (s : SharedFunctionInfo) : String :=
  if (s.Name).length > 0 then s.Name else s.inferredName

/-- Claim C10: `DebugName` returns the resolved name when it is non-empty
and the inferred name otherwise; it never consults debug info, so removing
the debug info leaves it unchanged and it is well-defined for records with
no debug info attached. -/
theorem DebugName_total (s : SharedFunctionInfo) :
    ((s.Name).length > 0 → s.DebugName = s.Name) ∧
    ((s.Name).length = 0 → s.DebugName = s.inferredName) ∧
    ({ s with debug_info := none } : SharedFunctionInfo).DebugName
      = s.DebugName := by
  refine ⟨?_, ?_, rfl⟩
  · intro hl
    simp [SharedFunctionInfo.DebugName, hl]
  · intro hl
    simp [SharedFunctionInfo.DebugName, hl]

/-- A record with no resolved name, an inferred name, and no debug info. -/
def exAnon : SharedFunctionInfo :=
  { exDeferred with name_or_scope_info := .noSharedName, debug_info := none }

/-- Witness for C10: the anonymous record's debug name falls back to its
inferred name even with no debug info attached. -/
theorem DebugName_total_witness :
    exAnon.debug_info = none ∧ exAnon.DebugName = exAnon.inferredName :=
  ⟨rfl, (DebugName_total exAnon).2.1 rfl⟩
